import Mathlib

/-
Verification of the Seanime "zoro" streaming-provider adapter
(src/src/hianime/zoro.ts) against its natural-language specification.

Strings are modelled as `List Char` (the JS string seen as a sequence of
code points; all inputs of interest are ASCII).  Each JS regex used by the
source is embedded as an explicit scanner with the same semantics
(leftmost match, greedy quantifiers, global / non-global replacement).
Network I/O is modelled by oracle functions passed explicitly: a fetch
that would fail with a non-success status is an oracle returning `none`.
-/

namespace Zoro

/-- Strings as lists of characters. -/
abbrev Str := List Char

deriving instance DecidableEq for Except

/-- Coerce a Lean string literal to the `List Char` model. -/
def str (s : String) : Str := s.data

/-- JS whitespace class (the set matched by `\s` and removed by `trim`):
space, tab, LF, VT, FF, CR, NBSP, and the Unicode space separators. -/
def wsChar (c : Char) : Bool :=
  c == ' ' || c == '\t' || c == '\n' || c.val == 11 || c.val == 12 || c == '\r' ||
  c.val == 0xa0 || c.val == 0x1680 || (0x2000 ≤ c.val && c.val ≤ 0x200a) ||
  c.val == 0x2028 || c.val == 0x2029 || c.val == 0x202f || c.val == 0x205f ||
  c.val == 0x3000 || c.val == 0xfeff

/-- JS `\d`: the ASCII digits. -/
def isDigitCh (c : Char) : Bool := '0' ≤ c && c ≤ '9'

/-- JS word character (the class underlying `\b`): `[A-Za-z0-9_]`. -/
def isWordCh (c : Char) : Bool :=
  isDigitCh c || ('a' ≤ c && c ≤ 'z') || ('A' ≤ c && c ≤ 'Z') || c == '_'

/-- JS `String.prototype.trim`: drop whitespace from both ends. -/
def trimStr (l : Str) : Str :=
  ((l.dropWhile (fun c => wsChar c)).reverse.dropWhile (fun c => wsChar c)).reverse

/-- Scanner state for the global replacement
`.replace(/\b(\d+)(st|nd|rd|th)\b/g, "$1")` (line 206 of the source).
`idle` records whether the previous character was a word character (for the
leading `\b`); `digits` holds the captured digit run; `suf` holds one
pending suffix character; `sufDone` holds a complete ordinal suffix,
awaiting the trailing `\b` check. -/
inductive OrdSt where
  | idle (prevWord : Bool)
  | digits (buf : Str)
  | suf (buf : Str) (c1 : Char)
  | sufDone (buf : Str) (c1 c2 : Char)

/-- First characters of the ordinal suffix alternatives `st|nd|rd|th`. -/
def ordStart (c : Char) : Bool := c == 's' || c == 'n' || c == 'r' || c == 't'

/-- Complete ordinal suffix pairs. -/
def ordPair (c1 c2 : Char) : Bool :=
  (c1 == 's' && c2 == 't') || (c1 == 'n' && c2 == 'd') ||
  (c1 == 'r' && c2 == 'd') || (c1 == 't' && c2 == 'h')

/-- One-pass scanner realizing the global replacement
`\b(\d+)(st|nd|rd|th)\b` → `$1`.  Skipping the whole attempted region on
failure is equivalent to the JS engine's restart at `pos+1`: every
position strictly inside an attempted match either lacks the leading word
boundary (it is preceded by a digit or suffix letter) or does not start
with a digit. -/
def ordRun : OrdSt → Str → Str
  | .idle _, [] => []
  | .idle prevWord, c :: cs =>
      if !prevWord && isDigitCh c then ordRun (.digits [c]) cs
      else c :: ordRun (.idle (isWordCh c)) cs
  | .digits buf, [] => buf
  | .digits buf, c :: cs =>
      if isDigitCh c then ordRun (.digits (buf ++ [c])) cs
      else if ordStart c then ordRun (.suf buf c) cs
      else buf ++ c :: ordRun (.idle (isWordCh c)) cs
  | .suf buf c1, [] => buf ++ [c1]
  | .suf buf c1, c :: cs =>
      if ordPair c1 c then ordRun (.sufDone buf c1 c) cs
      else buf ++ c1 :: c :: ordRun (.idle (isWordCh c)) cs
  | .sufDone buf _ _, [] => buf
  | .sufDone buf c1 c2, c :: cs =>
      if isWordCh c then buf ++ c1 :: c2 :: c :: ordRun (.idle true) cs
      else buf ++ c :: ordRun (.idle (isWordCh c)) cs

/-- `query.replace(/\b(\d+)(st|nd|rd|th)\b/g, "$1")`. -/
def stripOrdinals (l : Str) : Str := ordRun (.idle false) l

/-- `.replace(/\s+/g, " ")`: collapse every maximal whitespace run to one
space.  The boolean argument records whether the previous character was
whitespace (i.e. whether we are inside a run already emitted). -/
def collapseWsAux (prevWs : Bool) : Str → Str
  | [] => []
  | c :: cs =>
      if wsChar c then
        if prevWs then collapseWsAux true cs else ' ' :: collapseWsAux true cs
      else c :: collapseWsAux false cs

/-- `.replace(/\s+/g, " ")`. -/
def collapseWs (l : Str) : Str := collapseWsAux false l

/-- Case-insensitive literal prefix test (the `/i` flag on an ASCII
literal: compare both sides lowercased). -/
def ciStarts : Str → Str → Bool
  | [], _ => true
  | _ :: _, [] => false
  | p :: ps, c :: cs => (p.toLower == c.toLower) && ciStarts ps cs

/-- Try the pattern `(\d+)\s*Season` (case-insensitive) anchored at the
head of `l`.  Greedy `\d+` and `\s*` need no backtracking here because
digits, whitespace and the letter `s` are disjoint classes.  On success
returns the captured digits and the remainder after the match. -/
def tryNumSeason (l : Str) : Option (Str × Str) :=
  let ds := l.takeWhile (fun c => isDigitCh c)
  if ds.isEmpty then none
  else
    let r1 := (l.dropWhile (fun c => isDigitCh c)).dropWhile (fun c => wsChar c)
    if ciStarts (str "season") r1 then some (ds, r1.drop 6) else none

/-- Leftmost-match scan for `.replace(/(\d+)\s*Season/i, "$1")`
(non-global: only the first match is replaced). -/
def numSeasonGo : Str → Str
  | [] => []
  | c :: cs =>
      match tryNumSeason (c :: cs) with
      | some (ds, rest) => ds ++ rest
      | none => c :: numSeasonGo cs

/-- `.replace(/(\d+)\s*Season/i, "$1")`. -/
def replaceNumSeason (l : Str) : Str := numSeasonGo l

/-- Try the pattern `Season\s*(\d+)` (case-insensitive) anchored at the
head of `l`.  On success returns the captured digits and the remainder. -/
def trySeasonNum (l : Str) : Option (Str × Str) :=
  if ciStarts (str "season") l then
    let r1 := (l.drop 6).dropWhile (fun c => wsChar c)
    let ds := r1.takeWhile (fun c => isDigitCh c)
    if ds.isEmpty then none
    else some (ds, r1.dropWhile (fun c => isDigitCh c))
  else none

/-- Leftmost-match scan for `.replace(/Season\s*(\d+)/i, "$1")`. -/
def seasonNumGo : Str → Str
  | [] => []
  | c :: cs =>
      match trySeasonNum (c :: cs) with
      | some (ds, rest) => ds ++ rest
      | none => c :: seasonNumGo cs

/-- `.replace(/Season\s*(\d+)/i, "$1")`. -/
def replaceSeasonNum (l : Str) : Str := seasonNumGo l

/-- `normalizeQuery` (source lines 204-213): the five transformations in
source order — strip ordinal suffixes (global), collapse whitespace
(global), replace `(\d+)\s*Season` (first match), replace
`Season\s*(\d+)` (first match), trim. -/
def normalizeQuery (l : Str) : Str :=
  trimStr (replaceSeasonNum (replaceNumSeason (collapseWs (stripOrdinals l))))

example : normalizeQuery (str "3rd Season") = str "3" := by decide
example : normalizeQuery (str "Season 3") = str "3" := by decide
example : normalizeQuery (str "  My   Show ") = str "My Show" := by decide
example : normalizeQuery (str "1 Season 2 Season") = str "1 2 Season" := by decide
example : normalizeQuery (str "1 2 Season") = str "1 2" := by decide

/-- The fixed upstream base URL (source line 53). -/
def apiURL : Str := str "https://d2dd7450351ba6fb.vercel.app"

/-- One item of the upstream search response (`_AnimeResult`). -/
structure AnimeResult where
  id : Str
  title : Str
  url : Str
  image : Str
  duration : Str
  watchList : Str
  japaneseTitle : Str
  typ : Str
  nsfw : Bool
  sub : Int
  dub : Int
  episodes : Int
deriving DecidableEq

/-- One decoded page of the search endpoint (`_SearchPage`). -/
structure SearchPage where
  hasNextPage : Bool
  results : List AnimeResult
deriving DecidableEq

/-- The host-facing search result shape produced by `search`. -/
structure SearchResult where
  id : Str
  title : Str
  url : Str
  subOrDub : Str
deriving DecidableEq

/-- The `subOrDub` ternary of source lines 86-91:
`r.sub > 0 && r.dub > 0 ? "both" : r.dub > 0 ? "dub" : "sub"`. -/
def subOrDubOf (sub dub : Int) : Str :=
  if 0 < sub ∧ 0 < dub then str "both"
  else if 0 < dub then str "dub"
  else str "sub"

/-- The per-item mapping of source lines 84-100. -/
def mapResult (r : AnimeResult) : SearchResult :=
  { id := r.id
    title := r.title
    url := apiURL ++ str "/anime/zoro/info?id=" ++ r.id
    subOrDub := subOrDubOf r.sub r.dub }

/-- The `while (hasNext)` pagination loop of `search` (source lines 61-108).
`upstream` is the fetch oracle keyed by page number (`none` models a
non-success HTTP status); `fuel` bounds the number of iterations so the
model is total (the source loop itself has no bound and would iterate as
long as the upstream keeps answering `hasNextPage = true`).  The result
pairs the outcome with the number of requests issued; `none` means the
fuel ran out before the loop terminated. -/
def searchGo (upstream : Nat → Option SearchPage) :
    Nat → Nat → List SearchResult → Nat →
    Option (Except Str (List SearchResult) × Nat)
  | 0, _, _, _ => none
  | fuel + 1, page, acc, reqs =>
      match upstream page with
      | none => some (.error (str "Search failed (page " ++ (Nat.repr page).data ++ str ")"), reqs + 1)
      | some pg =>
          let acc2 := acc ++ pg.results.map mapResult
          if pg.hasNextPage then searchGo upstream fuel (page + 1) acc2 (reqs + 1)
          else some (.ok acc2, reqs + 1)

/-- `search`: the loop starts at page 1 with an empty accumulator. -/
def searchRun (upstream : Nat → Option SearchPage) (fuel : Nat) :
    Option (Except Str (List SearchResult) × Nat) :=
  searchGo upstream fuel 1 [] 0

/-- Concatenation of the mapped results of a list of pages, in page order. -/
def pagesResults : List SearchPage → List SearchResult
  | [] => []
  | p :: ps => p.results.map mapResult ++ pagesResults ps

/-- One entry of the watch response `sources` array. -/
structure WatchSource where
  url : Str
  isM3U8 : Bool
  typ : Str
deriving DecidableEq

/-- One entry of the watch response `subtitles` array. -/
structure WatchSubtitle where
  url : Str
  lang : Str
deriving DecidableEq

/-- The decoded watch-endpoint response (`_WatchResponse`). -/
structure WatchResponse where
  intro : Int × Int
  outro : Int × Int
  sources : List WatchSource
  subtitles : List WatchSubtitle
deriving DecidableEq

/-- A subtitle track attached to a video source. -/
structure SubtitleTrack where
  id : Str
  url : Str
  language : Str
  isDefault : Bool
deriving DecidableEq

/-- A video source of the final `EpisodeServer` output. -/
structure VideoSource where
  url : Str
  typ : Str
  quality : Str
  subtitles : List SubtitleTrack
deriving DecidableEq

/-- The final output of `findEpisodeServer`. -/
structure EpisodeServer where
  server : Str
  headers : List (Str × Str)
  videoSources : List VideoSource
deriving DecidableEq

/-- A parsed playlist variant (`{ res, uri }`, source line 166). -/
structure VariantEntry where
  res : Str
  uri : Str
deriving DecidableEq

/-- Case-insensitive substring test: the JS `/English/i.test(lang)`
is `containsCI (str "english") lang`. -/
def containsCI (pat : Str) : Str → Bool
  | [] => ciStarts pat []
  | c :: cs => ciStarts pat (c :: cs) || containsCI pat cs

/-- Try the pattern `RESOLUTION=(\d+)x(\d+)` anchored at the head of `l`
(case-sensitive; greedy `\d+` needs no backtracking since `x` is not a
digit).  Returns the two captured digit runs. -/
def tryRes (l : Str) : Option (Str × Str) :=
  if (str "RESOLUTION=").isPrefixOf l then
    let r := l.drop 11
    let ds1 := r.takeWhile (fun c => isDigitCh c)
    if ds1.isEmpty then none
    else
      match r.dropWhile (fun c => isDigitCh c) with
      | 'x' :: r3 =>
          let ds2 := r3.takeWhile (fun c => isDigitCh c)
          if ds2.isEmpty then none else some (ds1, ds2)
      | _ => none
  else none

/-- Leftmost-match scan for `line.match(/RESOLUTION=(\d+)x(\d+)/)`
(source line 171): `some (width, height)` with the captured digit runs. -/
def matchResolution : Str → Option (Str × Str)
  | [] => none
  | c :: cs =>
      match tryRes (c :: cs) with
      | some r => some r
      | none => matchResolution cs

/-- `masterEntry.url.replace(/\/[^/]*$/, "/")` (source line 161): if the
URL contains a `/`, keep everything up to and including the last `/`;
otherwise the regex does not match and the URL is unchanged. -/
def baseUrlOf (u : Str) : Str :=
  if u.contains '/' then (u.reverse.dropWhile (fun c => c != '/')).reverse else u

/-- `playlistText.split("\n")` (source line 165).  On the empty string JS
`split` yields one empty segment. -/
def splitLines : Str → List Str
  | [] => [[]]
  | c :: cs =>
      if c = '\n' then [] :: splitLines cs
      else
        match splitLines cs with
        | [] => [[c]]
        | s :: ss => (c :: s) :: ss

/-- The `#EXT-X-STREAM-INF:` marker checked by `line.startsWith`. -/
def tagMark : Str := str "#EXT-X-STREAM-INF:"

/-- The variant-collection loop of source lines 166-183: for every line
beginning with the stream-info marker whose `RESOLUTION=WxH` attribute
matches, take the next line trimmed; if it is present, non-empty and does
not begin with `#`, record `{ res := height ++ "p", uri }`.  The loop
advances one line at a time, so a URI line is itself examined as a
candidate tag line. -/
def parseVariants : List Str → List VariantEntry
  | [] => []
  | line :: rest =>
      (if tagMark.isPrefixOf line then
        match matchResolution line with
        | some (_, h) =>
            match rest.head? with
            | some nxt =>
                let u := trimStr nxt
                if u = [] then []
                else if u.head? = some '#' then []
                else [{ res := h ++ ['p'], uri := u }]
            | none => []
        | none => []
      else []) ++ parseVariants rest

/-- The subtitle mapping of source lines 190-195, with its running index:
`{id: episodeId ++ "-sub-" ++ idx, url, language, isDefault}` where
`isDefault` is the case-insensitive "english" substring test. -/
def subTrackOf (epId : Str) (i : Nat) (s : WatchSubtitle) : SubtitleTrack :=
  { id := epId ++ str "-sub-" ++ (Nat.repr i).data
    url := s.url
    language := s.lang
    isDefault := containsCI (str "english") s.lang }

/-- `watchData.subtitles.map((sub, idx) => ...)` starting at index `i`. -/
def subTracksFrom (epId : Str) (i : Nat) : List WatchSubtitle → List SubtitleTrack
  | [] => []
  | s :: ss => subTrackOf epId i s :: subTracksFrom epId (i + 1) ss

/-- The full subtitle list attached to every video source. -/
def subtitleTracks (epId : Str) (subs : List WatchSubtitle) : List SubtitleTrack :=
  subTracksFrom epId 0 subs

/-- `findEpisodeServer` (source lines 128-203).  `watchFetch` is the
outcome of fetching the watch endpoint for `episodeId` (`none` models a
non-success status); `playlistFetch` maps a manifest URL to its text. -/
def findEpisodeServer (episodeId server : Str)
    (watchFetch : Option WatchResponse)
    (playlistFetch : Str → Option Str) : Except Str EpisodeServer :=
  let serverName := if server = str "default" then str "zoro" else server
  match watchFetch with
  | none => .error (str "Failed to fetch watch info for " ++ episodeId)
  | some watchData =>
      match watchData.sources.find? (fun s => s.isM3U8) with
      | none => .error (str "No HLS master playlist found")
      | some masterEntry =>
          match playlistFetch masterEntry.url with
          | none => .error (str "Failed to fetch master playlist")
          | some playlistText =>
              let base := baseUrlOf masterEntry.url
              let variants := parseVariants (splitLines playlistText)
              .ok { server := serverName
                    headers := []
                    videoSources := variants.map (fun v =>
                      { url := base ++ v.uri
                        typ := str "m3u8"
                        quality := v.res
                        subtitles := subtitleTracks episodeId watchData.subtitles }) }

/-- Unfolding lemma: when the watch fetch succeeds, a source with
`isM3U8` is found, and the playlist fetch succeeds, `findEpisodeServer`
returns the parsed result. -/
lemma findEpisodeServer_ok (epId srv : Str) (ws : WatchResponse)
    (pf : Str → Option Str) (e : WatchSource) (t : Str)
    (hfind : ws.sources.find? (fun s => s.isM3U8) = some e)
    (hpf : pf e.url = some t) :
    findEpisodeServer epId srv (some ws) pf =
      .ok { server := if srv = str "default" then str "zoro" else srv
            headers := []
            videoSources := (parseVariants (splitLines t)).map (fun v =>
              { url := baseUrlOf e.url ++ v.uri
                typ := str "m3u8"
                quality := v.res
                subtitles := subtitleTracks epId ws.subtitles }) } := by
  simp [findEpisodeServer, hfind, hpf]

/-- `find?` returns the first element satisfying the predicate. -/
lemma find?_append_first {α : Type} (p : α → Bool) (pre : List α) (e : α)
    (post : List α) (h : ∀ s ∈ pre, p s = false) (he : p e = true) :
    (pre ++ e :: post).find? p = some e := by
  induction pre with
  | nil => simp [List.find?, he]
  | cons a as ih =>
      have ha : p a = false := h a (by simp)
      simp only [List.cons_append, List.find?, ha]
      exact ih (fun s hs => h s (by simp [hs]))

/-- C5 counterexample: `normalizeQuery` is not idempotent.  On
`"1 Season 2 Season"` the first pass rewrites only the first
`<number> Season` occurrence (the regex is non-global), leaving
`"1 2 Season"`, which a second pass reduces further to `"1 2"`. -/
theorem claim5_counterexample :
    normalizeQuery (normalizeQuery (str "1 Season 2 Season")) ≠
      normalizeQuery (str "1 Season 2 Season") := by decide

/-- C5 (amended): `normalizeQuery` is idempotent on the spec's tested
inputs, though not on every string. -/
theorem claim5_idempotence_amended :
    normalizeQuery (normalizeQuery (str "3rd Season")) = normalizeQuery (str "3rd Season")
    ∧ normalizeQuery (normalizeQuery (str "Season 3")) = normalizeQuery (str "Season 3")
    ∧ normalizeQuery (normalizeQuery (str "  My   Show ")) = normalizeQuery (str "  My   Show ") := by
  refine ⟨by decide, by decide, by decide⟩

/-- C6: the normalizer's concrete values, and the five transformations
applied in the source's order (ordinal stripping, whitespace collapsing,
`<number> Season`, `Season <number>`, trim). -/
theorem claim6_normalizer_values :
    normalizeQuery (str "3rd Season") = str "3"
    ∧ normalizeQuery (str "Season 3") = str "3"
    ∧ normalizeQuery (str "  My   Show ") = str "My Show"
    ∧ ∀ q : Str, normalizeQuery q =
        trimStr (replaceSeasonNum (replaceNumSeason (collapseWs (stripOrdinals q)))) :=
  ⟨by decide, by decide, by decide, fun q => rfl⟩

/-- C7: the mapped `subOrDub` follows the derivation rule — "both" when
both counts are positive, else "dub" when the dub count is positive, else
"sub" — it is always one of the three values, and the four concrete
cases of the spec hold. -/
theorem claim7_subOrDub :
    (∀ r : AnimeResult, (mapResult r).subOrDub = subOrDubOf r.sub r.dub)
    ∧ (∀ s d : Int,
        (0 < s ∧ 0 < d → subOrDubOf s d = str "both")
        ∧ (¬(0 < s ∧ 0 < d) → 0 < d → subOrDubOf s d = str "dub")
        ∧ (¬ 0 < d → subOrDubOf s d = str "sub"))
    ∧ (∀ s d : Int, subOrDubOf s d = str "sub" ∨ subOrDubOf s d = str "dub"
        ∨ subOrDubOf s d = str "both")
    ∧ subOrDubOf 2 0 = str "sub" ∧ subOrDubOf 0 3 = str "dub"
    ∧ subOrDubOf 1 1 = str "both" ∧ subOrDubOf 0 0 = str "sub" := by
  refine ⟨fun r => rfl, fun s d => ?_, fun s d => ?_, by decide, by decide, by decide, by decide⟩
  · refine ⟨fun h => by simp [subOrDubOf, h], fun h1 h2 => ?_, fun h => ?_⟩
    · have hs : ¬ 0 < s := fun hs => h1 ⟨hs, h2⟩
      simp [subOrDubOf, hs, h2]
    · have h1 : ¬(0 < s ∧ 0 < d) := fun hc => h hc.2
      simp [subOrDubOf, h1, h]
  · unfold subOrDubOf
    split_ifs <;> decide

/-- Witness for C7 at concrete counts. -/
theorem claim7_witness :
    (0 < (1 : Int) ∧ 0 < (1 : Int)) ∧ subOrDubOf 1 1 = str "both" :=
  ⟨by decide, ((claim7_subOrDub.2.1 1 1).1 (by decide))⟩

/-- C2: when no source has `isM3U8`, `findEpisodeServer` fails with the
"No HLS master playlist found" error; when one exists, the first such
entry drives the whole result — the response is the same as if the
sources list contained only that entry. -/
theorem claim2_no_hls_failure :
    (∀ (epId srv : Str) (ws : WatchResponse) (pf : Str → Option Str),
      (∀ s ∈ ws.sources, s.isM3U8 = false) →
      findEpisodeServer epId srv (some ws) pf =
        .error (str "No HLS master playlist found"))
    ∧ (∀ (epId srv : Str) (pf : Str → Option Str) (ws : WatchResponse)
        (pre post : List WatchSource) (e : WatchSource),
        ws.sources = pre ++ e :: post →
        (∀ s ∈ pre, s.isM3U8 = false) → e.isM3U8 = true →
        findEpisodeServer epId srv (some ws) pf =
          findEpisodeServer epId srv (some { ws with sources := [e] }) pf) := by
  constructor
  · intro epId srv ws pf h
    have hnone : ws.sources.find? (fun s => s.isM3U8) = none := by
      rw [List.find?_eq_none]
      intro x hx
      simp [h x hx]
    simp [findEpisodeServer, hnone]
  · intro epId srv pf ws pre post e hsrc hpre he
    have hfind : ws.sources.find? (fun s => s.isM3U8) = some e := by
      rw [hsrc]
      exact find?_append_first _ pre e post hpre he
    have hfind2 : ({ ws with sources := [e] } : WatchResponse).sources.find?
        (fun s => s.isM3U8) = some e := by
      simp [List.find?, he]
    simp [findEpisodeServer, hfind, hfind2]

/-- Witness for C2: a concrete watch response with no HLS entry
fails, and one with a non-HLS entry before the HLS entry resolves as if
only the HLS entry were present. -/
theorem claim2_witness :
    findEpisodeServer (str "e1") (str "default")
        (some { intro := (0, 0), outro := (0, 0)
                sources := [{ url := str "u1", isM3U8 := false, typ := str "mp4" }]
                subtitles := [] })
        (fun _ => none) = .error (str "No HLS master playlist found")
    ∧ findEpisodeServer (str "e1") (str "default")
        (some { intro := (0, 0), outro := (0, 0)
                sources := [{ url := str "u1", isM3U8 := false, typ := str "mp4" },
                            { url := str "u2", isM3U8 := true, typ := str "hls" }]
                subtitles := [] })
        (fun _ => none) =
      findEpisodeServer (str "e1") (str "default")
        (some { intro := (0, 0), outro := (0, 0)
                sources := [{ url := str "u2", isM3U8 := true, typ := str "hls" }]
                subtitles := [] })
        (fun _ => none) :=
  ⟨claim2_no_hls_failure.1 _ _ _ _ (by decide),
   claim2_no_hls_failure.2 _ _ _ _
     [{ url := str "u1", isM3U8 := false, typ := str "mp4" }] []
     { url := str "u2", isM3U8 := true, typ := str "hls" } rfl (by decide) rfl⟩

/-- The result of `findEpisodeServer` with the `server` label erased. -/
def stripServer (r : Except Str EpisodeServer) :
    Except Str (List (Str × Str) × List VideoSource) :=
  r.map (fun es => (es.headers, es.videoSources))

/-- C9: the server preference only renames the output — with identical
oracles, two preferences yield identical headers, video sources and
errors; and the `server` field of a successful result is "zoro" for the
preference "default" and the preference itself otherwise. -/
theorem claim9_server_noninterference :
    (∀ (epId p1 p2 : Str) (w : Option WatchResponse) (pf : Str → Option Str),
      stripServer (findEpisodeServer epId p1 w pf) =
        stripServer (findEpisodeServer epId p2 w pf))
    ∧ (∀ (epId p : Str) (w : Option WatchResponse) (pf : Str → Option Str)
        (r : EpisodeServer),
        findEpisodeServer epId p w pf = .ok r →
        r.server = if p = str "default" then str "zoro" else p) := by
  constructor
  · intro epId p1 p2 w pf
    cases w with
    | none => rfl
    | some ws =>
        cases hf : ws.sources.find? (fun s => s.isM3U8) with
        | none => simp [findEpisodeServer, hf, stripServer]
        | some e =>
            cases hp : pf e.url with
            | none => simp [findEpisodeServer, hf, hp, stripServer]
            | some t => simp [findEpisodeServer, hf, hp, stripServer, Except.map]
  · intro epId p w pf r h
    cases w with
    | none => simp [findEpisodeServer] at h
    | some ws =>
        cases hf : ws.sources.find? (fun s => s.isM3U8) with
        | none => simp [findEpisodeServer, hf] at h
        | some e =>
            cases hp : pf e.url with
            | none => simp [findEpisodeServer, hf, hp] at h
            | some t =>
                rw [findEpisodeServer_ok epId p ws pf e t hf hp] at h
                injection h with h2
                rw [← h2]

/-- Witness for C9 at a concrete successful resolution. -/
theorem claim9_witness :
    findEpisodeServer (str "e1") (str "srv2")
        (some { intro := (0, 0), outro := (0, 0)
                sources := [{ url := str "a/m.m3u8", isM3U8 := true, typ := str "hls" }]
                subtitles := [] })
        (fun _ => some []) =
      .ok { server := str "srv2", headers := [], videoSources := [] }
    ∧ ({ server := str "srv2", headers := [], videoSources := [] } : EpisodeServer).server =
        if (str "srv2" : Str) = str "default" then str "zoro" else str "srv2" :=
  ⟨by decide,
   claim9_server_noninterference.2 (str "e1") (str "srv2")
     (some { intro := (0, 0), outro := (0, 0)
             sources := [{ url := str "a/m.m3u8", isM3U8 := true, typ := str "hls" }]
             subtitles := [] })
     (fun _ => some [])
     { server := str "srv2", headers := [], videoSources := [] } (by decide)⟩

/-- Join lines with LF, the inverse of `splitLines` on newline-free
lines (the shape of the manifest text fetched by the resolver). -/
def joinLines : List Str → Str
  | [] => []
  | [l] => l
  | l :: ls => l ++ '\n' :: joinLines ls

/-- Splitting a newline-free string yields that single segment. -/
lemma splitLines_no_nl (l : Str) (h : '\n' ∉ l) : splitLines l = [l] := by
  induction l with
  | nil => rfl
  | cons c cs ih =>
      have hc : ¬ c = '\n' := fun e => h (by simp [e])
      have hcs : '\n' ∉ cs := fun hx => h (List.mem_cons_of_mem _ hx)
      simp [splitLines, hc, ih hcs]

/-- Splitting at an explicit LF peels off the newline-free first line. -/
lemma splitLines_append (l r : Str) (h : '\n' ∉ l) :
    splitLines (l ++ '\n' :: r) = l :: splitLines r := by
  induction l with
  | nil => simp [splitLines]
  | cons c cs ih =>
      have hc : ¬ c = '\n' := fun e => h (by simp [e])
      have hcs : '\n' ∉ cs := fun hx => h (List.mem_cons_of_mem _ hx)
      simp [splitLines, hc, ih hcs]

/-- `splitLines` is a left inverse of `joinLines` on non-empty lists of
newline-free lines. -/
lemma splitLines_joinLines : ∀ ls : List Str, ls ≠ [] → (∀ l ∈ ls, '\n' ∉ l) →
    splitLines (joinLines ls) = ls
  | [], h, _ => absurd rfl h
  | [l], _, h => splitLines_no_nl l (h l (by simp))
  | l :: l2 :: ls, _, h => by
      have hj : joinLines (l :: l2 :: ls) = l ++ '\n' :: joinLines (l2 :: ls) := rfl
      rw [hj, splitLines_append _ _ (h l (by simp))]
      rw [splitLines_joinLines (l2 :: ls) (by simp) (fun x hx => h x (by simp [hx]))]

/-- C3: graceful degradation of the manifest parse — a stream-info line
with no `RESOLUTION=WxH` attribute contributes no variant; a tag line
with no following line contributes no variant; a tag line whose following
line trims to a `#`-comment contributes no variant; and whenever the
watch fetch finds an HLS entry and the playlist fetch returns any text at
all, `findEpisodeServer` succeeds with `{serverName, headers: {},
videoSources}`, possibly with an empty `videoSources`. -/
theorem claim3_graceful_degradation :
    (∀ (line : Str) (rest : List Str),
      tagMark.isPrefixOf line = true → matchResolution line = none →
      parseVariants (line :: rest) = parseVariants rest)
    ∧ (∀ line : Str, parseVariants [line] = [])
    ∧ (∀ (line nxt : Str) (rest : List Str),
        (trimStr nxt).head? = some '#' →
        parseVariants (line :: nxt :: rest) = parseVariants (nxt :: rest))
    ∧ (∀ (epId srv : Str) (ws : WatchResponse) (pf : Str → Option Str)
        (e : WatchSource) (t : Str),
        ws.sources.find? (fun s => s.isM3U8) = some e →
        pf e.url = some t →
        ∃ vs, findEpisodeServer epId srv (some ws) pf =
          .ok { server := if srv = str "default" then str "zoro" else srv
                headers := []
                videoSources := vs }) := by
  refine ⟨?_, ?_, ?_, ?_⟩
  · intro line rest _ h2
    simp [parseVariants, h2]
  · intro line
    cases hm : matchResolution line with
    | none => simp [parseVariants, hm]
    | some p => cases p with
      | mk w h => simp [parseVariants, hm]
  · intro line nxt rest h
    cases hm : matchResolution line with
    | none => simp [parseVariants, hm]
    | some p =>
        cases p with
        | mk w hh =>
            by_cases he : trimStr nxt = []
            · simp [parseVariants, hm, he]
            · simp [parseVariants, hm, he, h]
  · intro epId srv ws pf e t hfind hpf
    exact ⟨_, findEpisodeServer_ok epId srv ws pf e t hfind hpf⟩

/-- Witness for C3: a resolution-free tag line, a dangling tag line, a
comment URI, and a successful resolution of an empty manifest. -/
theorem claim3_witness :
    parseVariants [str "#EXT-X-STREAM-INF:BANDWIDTH=2000", str "v.m3u8"] =
      parseVariants [str "v.m3u8"]
    ∧ parseVariants [str "#EXT-X-STREAM-INF:RESOLUTION=640x360"] = []
    ∧ parseVariants [str "#EXT-X-STREAM-INF:RESOLUTION=640x360", str "#EXT-X-ENDLIST"] =
        parseVariants [str "#EXT-X-ENDLIST"]
    ∧ ∃ vs, findEpisodeServer (str "e1") (str "pref")
        (some { intro := (0, 0), outro := (0, 0)
                sources := [{ url := str "a/m.m3u8", isM3U8 := true, typ := str "hls" }]
                subtitles := [] })
        (fun _ => some []) =
      .ok { server := if (str "pref" : Str) = str "default" then str "zoro" else str "pref"
            headers := []
            videoSources := vs } :=
  ⟨claim3_graceful_degradation.1 _ _ (by decide) (by decide),
   claim3_graceful_degradation.2.1 _,
   claim3_graceful_degradation.2.2.1 _ _ _ (by decide),
   claim3_graceful_degradation.2.2.2 _ _ _ _
     { url := str "a/m.m3u8", isM3U8 := true, typ := str "hls" } [] (by decide) rfl⟩

/-- C10: a recognized tag line whose following line trims to the empty
string contributes no variant (the JS truthiness check on the trimmed URI
rejects the empty string), and the call still succeeds with the variants
of the remaining lines. -/
theorem claim10_blank_uri :
    (∀ (tagLine blank : Str) (rest : List Str),
      trimStr blank = [] →
      parseVariants (tagLine :: blank :: rest) = parseVariants (blank :: rest))
    ∧ (∀ (epId srv : Str) (ws : WatchResponse) (pf : Str → Option Str)
        (e : WatchSource) (t : Str) (tagLine blank : Str) (rest : List Str),
        ws.sources.find? (fun s => s.isM3U8) = some e →
        pf e.url = some t →
        splitLines t = tagLine :: blank :: rest →
        trimStr blank = [] →
        findEpisodeServer epId srv (some ws) pf =
          .ok { server := if srv = str "default" then str "zoro" else srv
                headers := []
                videoSources := (parseVariants (blank :: rest)).map (fun v =>
                  { url := baseUrlOf e.url ++ v.uri
                    typ := str "m3u8"
                    quality := v.res
                    subtitles := subtitleTracks epId ws.subtitles }) }) := by
  have hskip : ∀ (tagLine blank : Str) (rest : List Str),
      trimStr blank = [] →
      parseVariants (tagLine :: blank :: rest) = parseVariants (blank :: rest) := by
    intro tagLine blank rest h
    cases hm : matchResolution tagLine with
    | none => simp [parseVariants, hm]
    | some p =>
        cases p with
        | mk w hh => simp [parseVariants, hm, h]
  refine ⟨hskip, ?_⟩
  intro epId srv ws pf e t tagLine blank rest hfind hpf hsplit htrim
  rw [findEpisodeServer_ok epId srv ws pf e t hfind hpf, hsplit,
    hskip tagLine blank rest htrim]

/-- Witness for C10: a tag line followed by a whitespace-only line is
skipped and the rest of the manifest still parses. -/
theorem claim10_witness :
    findEpisodeServer (str "e1") (str "default")
        (some { intro := (0, 0), outro := (0, 0)
                sources := [{ url := str "a/m.m3u8", isM3U8 := true, typ := str "hls" }]
                subtitles := [] })
        (fun _ => some (str "#EXT-X-STREAM-INF:RESOLUTION=1280x720\n  \n#EXT-X-STREAM-INF:RESOLUTION=640x360\nv360.m3u8")) =
      .ok { server := str "zoro"
            headers := []
            videoSources :=
              (parseVariants [str "  ", str "#EXT-X-STREAM-INF:RESOLUTION=640x360", str "v360.m3u8"]).map (fun v =>
                { url := baseUrlOf (str "a/m.m3u8") ++ v.uri
                  typ := str "m3u8"
                  quality := v.res
                  subtitles := subtitleTracks (str "e1") [] }) } := by
  have h := claim10_blank_uri.2 (str "e1") (str "default")
    { intro := (0, 0), outro := (0, 0)
      sources := [{ url := str "a/m.m3u8", isM3U8 := true, typ := str "hls" }]
      subtitles := [] }
    (fun _ => some (str "#EXT-X-STREAM-INF:RESOLUTION=1280x720\n  \n#EXT-X-STREAM-INF:RESOLUTION=640x360\nv360.m3u8"))
    { url := str "a/m.m3u8", isM3U8 := true, typ := str "hls" }
    (str "#EXT-X-STREAM-INF:RESOLUTION=1280x720\n  \n#EXT-X-STREAM-INF:RESOLUTION=640x360\nv360.m3u8")
    (str "#EXT-X-STREAM-INF:RESOLUTION=1280x720") (str "  ")
    [str "#EXT-X-STREAM-INF:RESOLUTION=640x360", str "v360.m3u8"]
    (by decide) rfl (by decide) (by decide)
  exact h

/-- A well-formed master-playlist variant: a stream-info tag line whose
`RESOLUTION` attribute captures `(w, h)`, followed by a URI line. -/
structure TagSpec where
  tag : Str
  uri : Str
  w : Str
  h : Str
deriving DecidableEq

/-- The playlist lines of a list of variants: each tag line immediately
followed by its URI line. -/
def interleavePairs : List TagSpec → List Str
  | [] => []
  | p :: ps => p.tag :: p.uri :: interleavePairs ps

/-- Every playlist line of `interleavePairs ps` is a tag or URI of `ps`. -/
lemma mem_interleavePairs {l : Str} {ps : List TagSpec}
    (h : l ∈ interleavePairs ps) : ∃ p ∈ ps, l = p.tag ∨ l = p.uri := by
  induction ps with
  | nil => simp [interleavePairs] at h
  | cons p ps ih =>
      simp only [interleavePairs, List.mem_cons] at h
      rcases h with h | h | h
      · exact ⟨p, by simp, .inl h⟩
      · exact ⟨p, by simp, .inr h⟩
      · obtain ⟨q, hq, he⟩ := ih h
        exact ⟨q, by simp [hq], he⟩

/-- Parsing an interleaved list of well-formed variants yields exactly one
`VariantEntry` per variant, in order, with the captured height and the
trimmed URI. -/
lemma parseVariants_interleave (ps : List TagSpec)
    (h : ∀ p ∈ ps, tagMark.isPrefixOf p.tag = true
        ∧ matchResolution p.tag = some (p.w, p.h)
        ∧ trimStr p.uri ≠ []
        ∧ (trimStr p.uri).head? ≠ some '#'
        ∧ tagMark.isPrefixOf p.uri = false) :
    parseVariants (interleavePairs ps) =
      ps.map (fun p => { res := p.h ++ ['p'], uri := trimStr p.uri }) := by
  induction ps with
  | nil => rfl
  | cons p ps ih =>
      obtain ⟨h1, h2, h3, h4, h5⟩ := h p (by simp)
      have hrest := ih (fun x hx => h x (by simp [hx]))
      simp [interleavePairs, parseVariants, h1, h2, h3, h4, h5, hrest]

/-- C1: for a master playlist consisting of well-formed stream-info tag
lines each followed by a URI line, `findEpisodeServer` produces one video
source per variant, in playlist order, with quality `<height>p` taken
from the `RESOLUTION=<width>x<height>` capture (width discarded) and url
equal to the manifest's base path (everything up to and including the
final `/`) concatenated with the trimmed URI line. -/
theorem claim1_manifest_parsing :
    ∀ (epId srv : Str) (ws : WatchResponse) (pf : Str → Option Str)
      (e : WatchSource) (ps : List TagSpec),
      ws.sources.find? (fun s => s.isM3U8) = some e →
      pf e.url = some (joinLines (interleavePairs ps)) →
      ps ≠ [] →
      (∀ p ∈ ps, '\n' ∉ p.tag ∧ '\n' ∉ p.uri
        ∧ tagMark.isPrefixOf p.tag = true
        ∧ matchResolution p.tag = some (p.w, p.h)
        ∧ trimStr p.uri ≠ []
        ∧ (trimStr p.uri).head? ≠ some '#'
        ∧ tagMark.isPrefixOf p.uri = false) →
      findEpisodeServer epId srv (some ws) pf =
        .ok { server := if srv = str "default" then str "zoro" else srv
              headers := []
              videoSources := ps.map (fun p =>
                { url := baseUrlOf e.url ++ trimStr p.uri
                  typ := str "m3u8"
                  quality := p.h ++ ['p']
                  subtitles := subtitleTracks epId ws.subtitles }) } := by
  intro epId srv ws pf e ps hfind hpf hne hps
  have hnl : ∀ l ∈ interleavePairs ps, '\n' ∉ l := by
    intro l hl
    obtain ⟨p, hp, he⟩ := mem_interleavePairs hl
    rcases he with rfl | rfl
    · exact (hps p hp).1
    · exact (hps p hp).2.1
  have hine : interleavePairs ps ≠ [] := by
    cases ps with
    | nil => exact absurd rfl hne
    | cons p ps => simp [interleavePairs]
  rw [findEpisodeServer_ok epId srv ws pf e _ hfind hpf,
    splitLines_joinLines _ hine hnl,
    parseVariants_interleave ps (fun p hp => ⟨(hps p hp).2.2.1, (hps p hp).2.2.2.1,
      (hps p hp).2.2.2.2.1, (hps p hp).2.2.2.2.2.1, (hps p hp).2.2.2.2.2.2⟩),
    List.map_map]
  rfl

/-- Witness for C1: the spec's two-variant playlist with base
`https://x/y/` yields exactly `https://x/y/variant720.m3u8` ("720p") then
`https://x/y/variant360.m3u8` ("360p"). -/
theorem claim1_witness :
    findEpisodeServer (str "ep1") (str "default")
        (some { intro := (0, 0), outro := (0, 0)
                sources := [{ url := str "https://x/y/master.m3u8", isM3U8 := true, typ := str "hls" }]
                subtitles := [] })
        (fun u => if u = str "https://x/y/master.m3u8"
          then some (str "#EXT-X-STREAM-INF:BANDWIDTH=1000,RESOLUTION=1280x720\nvariant720.m3u8\n#EXT-X-STREAM-INF:BANDWIDTH=500,RESOLUTION=640x360\nvariant360.m3u8")
          else none) =
      .ok { server := str "zoro"
            headers := []
            videoSources :=
              [{ url := str "https://x/y/variant720.m3u8", typ := str "m3u8"
                 quality := str "720p", subtitles := [] },
               { url := str "https://x/y/variant360.m3u8", typ := str "m3u8"
                 quality := str "360p", subtitles := [] }] } := by
  have h := claim1_manifest_parsing (str "ep1") (str "default")
    { intro := (0, 0), outro := (0, 0)
      sources := [{ url := str "https://x/y/master.m3u8", isM3U8 := true, typ := str "hls" }]
      subtitles := [] }
    (fun u => if u = str "https://x/y/master.m3u8"
      then some (str "#EXT-X-STREAM-INF:BANDWIDTH=1000,RESOLUTION=1280x720\nvariant720.m3u8\n#EXT-X-STREAM-INF:BANDWIDTH=500,RESOLUTION=640x360\nvariant360.m3u8")
      else none)
    { url := str "https://x/y/master.m3u8", isM3U8 := true, typ := str "hls" }
    [{ tag := str "#EXT-X-STREAM-INF:BANDWIDTH=1000,RESOLUTION=1280x720"
       uri := str "variant720.m3u8", w := str "1280", h := str "720" },
     { tag := str "#EXT-X-STREAM-INF:BANDWIDTH=500,RESOLUTION=640x360"
       uri := str "variant360.m3u8", w := str "640", h := str "360" }]
    (by decide) (by decide) (by decide) (by decide)
  exact h.trans (by decide)

/-- The pagination loop consumes a page list whose `hasNextPage` flags
are true until the last page: one request per page, results concatenated
in page order. -/
lemma searchGo_pages (upstream : Nat → Option SearchPage) :
    ∀ (ps : List SearchPage) (fuel start : Nat) (acc : List SearchResult) (reqs : Nat),
      ps ≠ [] → ps.length ≤ fuel →
      (∀ i (h : i < ps.length), upstream (start + i) = some (ps.get ⟨i, h⟩)) →
      (∀ i (h : i < ps.length), (ps.get ⟨i, h⟩).hasNextPage = decide (i + 1 < ps.length)) →
      searchGo upstream fuel start acc reqs =
        some (.ok (acc ++ pagesResults ps), reqs + ps.length) := by
  intro ps
  induction ps with
  | nil => intro fuel start acc reqs hne; exact absurd rfl hne
  | cons p ps ih =>
      intro fuel start acc reqs _ hfuel hup hnext
      obtain ⟨f, rfl⟩ : ∃ f, fuel = f + 1 := ⟨fuel - 1, by simp at hfuel; omega⟩
      have h0 : upstream start = some p := by simpa using hup 0 (by simp)
      cases ps with
      | nil =>
          have hn : p.hasNextPage = false := by simpa using hnext 0 (by simp)
          simp [searchGo, h0, hn, pagesResults]
      | cons q ps2 =>
          have hn : p.hasNextPage = true := by
            have := hnext 0 (by simp)
            simpa using this
          have hup2 : ∀ i (h : i < (q :: ps2).length),
              upstream (start + 1 + i) = some ((q :: ps2).get ⟨i, h⟩) := by
            intro i h
            have := hup (i + 1) (by simpa using Nat.succ_lt_succ h)
            simpa [Nat.add_assoc, Nat.add_comm 1 i] using this
          have hnext2 : ∀ i (h : i < (q :: ps2).length),
              ((q :: ps2).get ⟨i, h⟩).hasNextPage = decide (i + 1 < (q :: ps2).length) := by
            intro i h
            have h2 := hnext (i + 1) (by simpa using Nat.succ_lt_succ h)
            rw [List.get_cons_succ] at h2
            rw [h2]
            exact decide_eq_decide.mpr (by simp only [List.length_cons]; omega)
          have hrec := ih f (start + 1) (acc ++ p.results.map mapResult) (reqs + 1)
            (by simp) (by simp at hfuel ⊢; omega) hup2 hnext2
          simp only [searchGo, h0, hn, if_true]
          rw [hrec]
          simp [pagesResults, List.append_assoc]
          omega

/-- C4: starting at page 1, `search` requests successive pages while the
decoded `hasNextPage` is true, stops at the first page answering false,
issues exactly one request per page, and returns the concatenation of
every page's mapped results in page order. -/
theorem claim4_search_pagination :
    ∀ (upstream : Nat → Option SearchPage) (ps : List SearchPage) (fuel : Nat),
      ps ≠ [] → ps.length ≤ fuel →
      (∀ i (h : i < ps.length), upstream (1 + i) = some (ps.get ⟨i, h⟩)) →
      (∀ i (h : i < ps.length), (ps.get ⟨i, h⟩).hasNextPage = decide (i + 1 < ps.length)) →
      searchRun upstream fuel = some (.ok (pagesResults ps), ps.length) := by
  intro upstream ps fuel h1 h2 h3 h4
  have h := searchGo_pages upstream ps fuel 1 [] 0 h1 h2 h3 h4
  simpa [searchRun] using h

/-- A minimal upstream item for the C4 witness. -/
def mkAnime (i : Str) (s d : Int) : AnimeResult :=
  { id := i, title := i, url := [], image := [], duration := [], watchList := []
    japaneseTitle := [], typ := [], nsfw := false, sub := s, dub := d, episodes := 1 }

/-- A fake 3-page upstream answering hasNextPage true, true, false. -/
def upstream3 : Nat → Option SearchPage := fun n =>
  if n = 1 then some ⟨true, [mkAnime (str "a1") 1 0]⟩
  else if n = 2 then some ⟨true, [mkAnime (str "a2") 0 1]⟩
  else if n = 3 then some ⟨false, [mkAnime (str "a3") 1 1]⟩
  else none

/-- Witness for C4: the fake 3-page upstream produces exactly 3 requests
and the three pages' mapped results in order. -/
theorem claim4_witness :
    searchRun upstream3 3 =
      some (.ok [mapResult (mkAnime (str "a1") 1 0),
                 mapResult (mkAnime (str "a2") 0 1),
                 mapResult (mkAnime (str "a3") 1 1)], 3) := by
  have h := claim4_search_pagination upstream3
    [⟨true, [mkAnime (str "a1") 1 0]⟩, ⟨true, [mkAnime (str "a2") 0 1]⟩,
     ⟨false, [mkAnime (str "a3") 1 1]⟩] 3
    (by decide) (by decide) (by decide) (by decide)
  exact h.trans (by decide)

/-- Length of the indexed subtitle map. -/
lemma subTracksFrom_length (epId : Str) :
    ∀ (subs : List WatchSubtitle) (start : Nat),
      (subTracksFrom epId start subs).length = subs.length := by
  intro subs
  induction subs with
  | nil => intro start; rfl
  | cons s ss ih => intro start; simp [subTracksFrom, ih]

/-- The indexed subtitle map sends position `i` (from `start`) to the
track built from the subtitle at position `i`. -/
lemma subTracksFrom_get (epId : Str) :
    ∀ (subs : List WatchSubtitle) (start i : Nat) (h : i < subs.length)
      (h2 : i < (subTracksFrom epId start subs).length),
      (subTracksFrom epId start subs).get ⟨i, h2⟩ =
        subTrackOf epId (start + i) (subs.get ⟨i, h⟩) := by
  intro subs
  induction subs with
  | nil => intro start i h; simp at h
  | cons s ss ih =>
      intro start i h h2
      cases i with
      | zero => rfl
      | succ j =>
          have hj : j < ss.length := by simpa using h
          have hj2 : j < (subTracksFrom epId (start + 1) ss).length := by
            rw [subTracksFrom_length]; exact hj
          have := ih (start + 1) j hj hj2
          simp only [subTracksFrom, List.get_cons_succ, this]
          congr 1
          omega

/-- C8: every video source of a successful resolution carries the same
subtitle list, which maps the upstream tracks in order: the track at
zero-based position `i` is `{id: "<episodeId>-sub-<i>", url, language,
isDefault}`, where `isDefault` is the case-insensitive "english"
substring test ("English" and "english (US)" are default, "Spanish" is
not). -/
theorem claim8_subtitles :
    (∀ (epId srv : Str) (ws : WatchResponse) (pf : Str → Option Str)
      (r : EpisodeServer),
      findEpisodeServer epId srv (some ws) pf = .ok r →
      ∀ v ∈ r.videoSources, v.subtitles = subtitleTracks epId ws.subtitles)
    ∧ (∀ (epId : Str) (subs : List WatchSubtitle),
        (subtitleTracks epId subs).length = subs.length)
    ∧ (∀ (epId : Str) (subs : List WatchSubtitle) (i : Nat)
        (h : i < subs.length) (h2 : i < (subtitleTracks epId subs).length),
        (subtitleTracks epId subs).get ⟨i, h2⟩ = subTrackOf epId i (subs.get ⟨i, h⟩))
    ∧ (∀ (epId : Str) (i : Nat) (s : WatchSubtitle),
        (subTrackOf epId i s).id = epId ++ str "-sub-" ++ (Nat.repr i).data
        ∧ (subTrackOf epId i s).url = s.url
        ∧ (subTrackOf epId i s).language = s.lang
        ∧ (subTrackOf epId i s).isDefault = containsCI (str "english") s.lang)
    ∧ containsCI (str "english") (str "English") = true
    ∧ containsCI (str "english") (str "english (US)") = true
    ∧ containsCI (str "english") (str "Spanish") = false := by
  refine ⟨?_, fun epId subs => subTracksFrom_length epId subs 0,
    ?_, fun epId i s => ⟨rfl, rfl, rfl, rfl⟩, by decide, by decide, by decide⟩
  · intro epId srv ws pf r h v hv
    cases hf : ws.sources.find? (fun s => s.isM3U8) with
    | none => simp [findEpisodeServer, hf] at h
    | some e =>
        cases hp : pf e.url with
        | none => simp [findEpisodeServer, hf, hp] at h
        | some t =>
            rw [findEpisodeServer_ok epId srv ws pf e t hf hp] at h
            injection h with h2
            rw [← h2] at hv
            simp only [List.mem_map] at hv
            obtain ⟨x, _, rfl⟩ := hv
            rfl
  · intro epId subs i h h2
    have := subTracksFrom_get epId subs 0 i h (by simpa [subtitleTracks] using h2)
    simpa [subtitleTracks] using this

/-- Concrete watch response for the C8 witness: one HLS source, an
English and a Spanish subtitle track. -/
def exWatchC8 : WatchResponse :=
  { intro := (0, 0), outro := (0, 0)
    sources := [{ url := str "a/m.m3u8", isM3U8 := true, typ := str "hls" }]
    subtitles := [{ url := str "s1.vtt", lang := str "English" },
                  { url := str "s2.vtt", lang := str "Spanish" }] }

/-- Concrete playlist oracle for the C8 witness: a two-variant master. -/
def exPfC8 : Str → Option Str := fun _ =>
  some (str "#EXT-X-STREAM-INF:RESOLUTION=1280x720\nv720.m3u8\n#EXT-X-STREAM-INF:RESOLUTION=640x360\nv360.m3u8")

/-- The subtitle tracks every variant of the C8 witness must carry. -/
def exTracksC8 : List SubtitleTrack :=
  [{ id := str "e1-sub-0", url := str "s1.vtt", language := str "English", isDefault := true },
   { id := str "e1-sub-1", url := str "s2.vtt", language := str "Spanish", isDefault := false }]

/-- The expected video sources of the C8 witness. -/
def exVideoC8 : List VideoSource :=
  [{ url := str "a/v720.m3u8", typ := str "m3u8", quality := str "720p", subtitles := exTracksC8 },
   { url := str "a/v360.m3u8", typ := str "m3u8", quality := str "360p", subtitles := exTracksC8 }]

/-- Witness for C8 at a concrete two-variant, two-subtitle resolution. -/
theorem claim8_witness :
    findEpisodeServer (str "e1") (str "default") (some exWatchC8) exPfC8 =
      .ok { server := str "zoro", headers := [], videoSources := exVideoC8 }
    ∧ ∀ v ∈ exVideoC8, v.subtitles = subtitleTracks (str "e1") exWatchC8.subtitles := by
  constructor
  · decide
  · exact claim8_subtitles.1 (str "e1") (str "default") exWatchC8 exPfC8
      { server := str "zoro", headers := [], videoSources := exVideoC8 } (by decide)

end Zoro
